import Mathlib

/-!
pdf-management-api: form introspection, form fill and the template store.

A shallow embedding of `src/utilities/pdfUtils.js` and `src/routes/api-v1.js`.

* JavaScript values that reach the code from a JSON body are `JsVal`; a fill
  request is a list of entries `{ fieldID, fieldType, value }`, a property that
  is absent being `undefined`.
* A thrown exception is the `error` side of `Except JsError`; a `try/catch`
  is a `match` on that result.
* The filesystem is explicit state: an association list from paths to entries.
  File names are plain names, so that `path.join` of the template directory
  and a name is the directory, a slash and the name.
* The calls into `pdf-lib` (`PDFDocument.load`, `getForm`, `getFields`,
  `getTextField`, `getCheckBox`, `setText`, `check`, `uncheck`, `flatten`,
  `save`) are modelled on a document that is a list of form fields, each with
  a name, a class and a stored value. Fields have no length limit, and
  drawing the appearances with the embedded font succeeds.
* `new Date().toISOString()` is modelled on a clock reading in milliseconds
  since the epoch, the calendar date being computed from the day count;
  `path.basename` and `path.extname` are parameters of `storage.filename`.
-/

namespace PdfApi

deriving instance DecidableEq for Except

/-! ## JavaScript values and errors -/

/-- A JavaScript value as far as the code inspects it: `undefined`, `null`,
booleans, numbers (integers here: the code only tests a number for being
zero), strings, and any object or array. -/
inductive JsVal where
  | undefined
  | null
  | bool (b : Bool)
  | num (n : Int)
  | str (s : String)
  | object
  deriving DecidableEq, Repr

/-- JavaScript truthiness, as used by `if (item.value)`. -/
def JsVal.truthy : JsVal → Bool
  | .undefined => false
  | .null => false
  | .bool b => b
  | .num n => n != 0
  | .str s => s != ""
  | .object => true

/-- The exceptions the embedded code can raise. -/
inductive JsError where
  /-- Raised by `fs.readFile` on a missing path. -/
  | ENOENT
  /-- Raised by `fs.readFile` and `fs.unlinkSync` on a directory. -/
  | EISDIR
  /-- Raised by `PDFDocument.load` on bytes that are not a PDF. -/
  | parseError
  /-- Raised by `pdfDoc.embedFont` on bytes that are not a font. -/
  | fontError
  /-- Raised by `pdfDoc.getForm()` on a damaged form dictionary. -/
  | formError
  /-- Raised by `form.getFields()` on a damaged field tree. -/
  | fieldsError
  /-- The `NoSuchFieldError` of pdf-lib: no field has the requested name. -/
  | NoSuchFieldError (name : String)
  /-- The `UnexpectedFieldTypeError` of pdf-lib: the field has another class. -/
  | UnexpectedFieldTypeError (name : String)
  /-- A `TypeError` from an argument assertion of pdf-lib. -/
  | TypeError
  deriving DecidableEq, Repr

/-! ## Documents and form fields (the pdf-lib object model) -/

/-- The field classes `form.getFields()` can return; `field.constructor.name`
is the class name. -/
inductive FieldClass where
  | PDFTextField
  | PDFCheckBox
  | PDFButton
  | PDFDropdown
  | PDFOptionList
  | PDFRadioGroup
  | PDFSignature
  deriving DecidableEq, Repr

/-- The value of `field.constructor.name`. -/
def FieldClass.constructorName : FieldClass → String
  | .PDFTextField => "PDFTextField"
  | .PDFCheckBox => "PDFCheckBox"
  | .PDFButton => "PDFButton"
  | .PDFDropdown => "PDFDropdown"
  | .PDFOptionList => "PDFOptionList"
  | .PDFRadioGroup => "PDFRadioGroup"
  | .PDFSignature => "PDFSignature"

/-- A form field: `name` is what `getName()` returns (the empty string for a
field without a name), `cls` its class, `text` the content of a text field
(empty when it stores none) and `checked` the state of a checkbox. -/
structure PDFField where
  name : String
  cls : FieldClass
  text : String
  checked : Bool
  deriving DecidableEq, Repr

/-- A parsed document. `formReadable` says whether `getForm()` returns,
`fieldsReadable` whether `getFields()` returns, `fields` is the document's
field list in document order. -/
structure PDFDocument where
  formReadable : Bool
  fieldsReadable : Bool
  fields : List PDFField
  deriving DecidableEq, Repr

/-! ## The filesystem -/

/-- What the bytes of a file are. -/
inductive FileBytes where
  | pdf (doc : PDFDocument)
  | font
  | other
  deriving DecidableEq, Repr

/-- An entry of the filesystem. -/
inductive FsEntry where
  | file (bytes : FileBytes)
  | directory
  deriving DecidableEq, Repr

/-- The filesystem: paths and what they hold; the first binding of a path
counts. -/
abbrev FileSystem := List (String × FsEntry)

/-- The entry at a path, if any. -/
def FileSystem.lookup (fs : FileSystem) (p : String) : Option FsEntry :=
  match fs with
  | [] => none
  | (q, e) :: rest => if q = p then some e else FileSystem.lookup rest p

/-- `fs.existsSync(p)`. -/
def existsSync (fs : FileSystem) (p : String) : Bool :=
  (fs.lookup p).isSome

/-- `fs.readFile(p)`. -/
def readFile (fs : FileSystem) (p : String) : Except JsError FileBytes :=
  match fs.lookup p with
  | none => .error .ENOENT
  | some .directory => .error .EISDIR
  | some (.file b) => .ok b

/-- `fs.unlinkSync(p)`: removes the file, or throws. -/
def unlinkSync (fs : FileSystem) (p : String) : Except JsError FileSystem :=
  match fs.lookup p with
  | none => .error .ENOENT
  | some .directory => .error .EISDIR
  | some (.file _) => .ok (fs.filter (fun qe => qe.1 ≠ p))

/-- The last non-empty component of a POSIX path, as characters. -/
def lastComponent (p : List Char) : List Char :=
  (((p.splitOn '/').filter (fun c => c ≠ [])).getLast?).getD []

/-- `path.basename(p)`: the last non-empty component of a POSIX path. -/
def basename (p : String) : String :=
  String.mk (lastComponent p.data)

/-! ## pdf-lib calls -/

/-- `PDFDocument.load(bytes)`. -/
def PDFDocument.load (b : FileBytes) : Except JsError PDFDocument :=
  match b with
  | .pdf doc => .ok doc
  | _ => .error .parseError

/-- `pdfDoc.embedFont(bytes)`. -/
def embedFont (b : FileBytes) : Except JsError Unit :=
  match b with
  | .font => .ok ()
  | _ => .error .fontError

/-- The form object returned by `pdfDoc.getForm()`: the live field list and
whether it can be enumerated. -/
structure PDFForm where
  fieldsReadable : Bool
  fields : List PDFField
  deriving DecidableEq, Repr

/-- `pdfDoc.getForm()`. -/
def PDFDocument.getForm (doc : PDFDocument) : Except JsError PDFForm :=
  if doc.formReadable then .ok ⟨doc.fieldsReadable, doc.fields⟩ else .error .formError

/-- `form.getFields()`. -/
def PDFForm.getFields (form : PDFForm) : Except JsError (List PDFField) :=
  if form.fieldsReadable then .ok form.fields else .error .fieldsError

/-- `form.getFieldMaybe(name)`: the first field whose name is `name`. -/
def getFieldMaybe (fields : List PDFField) (name : String) : Option PDFField :=
  fields.find? (fun f => f.name = name)

/-- Writes `g` in place of the first field called `name`: the effect of
mutating the object that `getFieldMaybe` returned. -/
def updateField (fields : List PDFField) (name : String) (g : PDFField) : List PDFField :=
  match fields with
  | [] => []
  | f :: rest => if f.name = name then g :: rest else f :: updateField rest name g

/-- `form.getField(name)` followed by the class test shared by
`form.getTextField` and `form.getCheckBox`: asserts that `name` is a string,
throws `NoSuchFieldError` when no field has that name and
`UnexpectedFieldTypeError` when the field found has another class. -/
def PDFForm.getFieldOfClass (form : PDFForm) (cls : FieldClass) (name : JsVal) :
    Except JsError PDFField :=
  match name with
  | .str n =>
    match form.getFields with
    | .error e => .error e
    | .ok fields =>
      match getFieldMaybe fields n with
      | none => .error (.NoSuchFieldError n)
      | some f => if f.cls = cls then .ok f else .error (.UnexpectedFieldTypeError n)
  | _ => .error .TypeError

/-- `form.getTextField(name)`. -/
def PDFForm.getTextField (form : PDFForm) (name : JsVal) : Except JsError PDFField :=
  form.getFieldOfClass .PDFTextField name

/-- `form.getCheckBox(name)`. -/
def PDFForm.getCheckBox (form : PDFForm) (name : JsVal) : Except JsError PDFField :=
  form.getFieldOfClass .PDFCheckBox name

/-- `textField.setText(value)` on the field `f` of `form`: accepts a string
or `undefined` (which clears the field) and throws a `TypeError` otherwise. -/
def PDFForm.setText (form : PDFForm) (f : PDFField) (value : JsVal) : Except JsError PDFForm :=
  match value with
  | .str s => .ok { form with fields := updateField form.fields f.name { f with text := s } }
  | .undefined => .ok { form with fields := updateField form.fields f.name { f with text := "" } }
  | _ => .error .TypeError

/-- `checkBox.check()` on the field `f` of `form`. -/
def PDFForm.check (form : PDFForm) (f : PDFField) : PDFForm :=
  { form with fields := updateField form.fields f.name { f with checked := true } }

/-- `checkBox.uncheck()` on the field `f` of `form`. -/
def PDFForm.uncheck (form : PDFForm) (f : PDFField) : PDFForm :=
  { form with fields := updateField form.fields f.name { f with checked := false } }

/-- The bytes returned by `pdfDoc.save()` after `form.flatten()`: no
interactive field is left, and `rendered` is the static page content, one
item per former field, showing the state the field had when flattened. -/
structure FilledPdf where
  rendered : List PDFField
  deriving DecidableEq, Repr

/-- `form.flatten()` followed by `pdfDoc.save()`: flattening enumerates the
fields and bakes the state of each into the page. -/
def PDFForm.flattenAndSave (form : PDFForm) : Except JsError FilledPdf :=
  match form.getFields with
  | .error e => .error e
  | .ok fields => .ok ⟨fields⟩

/-! ## `src/utilities/pdfUtils.js` -/

/-- An element of the `field` array: `{ fieldID, fieldType, value }`. -/
structure FieldEntry where
  fieldID : JsVal
  fieldType : JsVal
  value : JsVal
  deriving DecidableEq, Repr

/-- The object returned by `getAllFormFieldsAndValues`; `{}` has neither
property. -/
structure FieldsReport where
  fileName : Option String
  field : Option (List FieldEntry)
  deriving DecidableEq, Repr

/-- The empty object `{}`. -/
def FieldsReport.empty : FieldsReport := ⟨none, none⟩

/-- The body of the `fields.forEach` callback: the entry pushed for one field. -/
def fieldEntry (field : PDFField) : FieldEntry :=
  let type := field.cls.constructorName
  let name := if field.name = "" then "[Unnamed Field]" else field.name
  let value :=
    if type = "PDFTextField" then JsVal.str ""
    else if type = "PDFCheckBox" then JsVal.bool false
    else JsVal.undefined
  { fieldID := .str name, fieldType := .str type, value := value }

/-- The `try` block of `getAllFormFieldsAndValues`. -/
def getAllFormFieldsAndValuesTry (fs : FileSystem) (filePath : String) :
    Except JsError FieldsReport := do
  let pdfBuffer ← readFile fs filePath
  let pdfDoc ← PDFDocument.load pdfBuffer
  let form ← pdfDoc.getForm
  let fields ← form.getFields
  let fieldData := fields.map fieldEntry
  pure { fileName := some (basename filePath), field := some fieldData }

/-- `getAllFormFieldsAndValues(filePath)`: the `try` block, and `{}` from the
`catch` clause. -/
def getAllFormFieldsAndValues (fs : FileSystem) (filePath : String) :
    Except JsError FieldsReport :=
  match getAllFormFieldsAndValuesTry fs filePath with
  | .ok r => .ok r
  | .error _ => .ok FieldsReport.empty

/-- Which arm of `switch (item.fieldType)` an entry takes. -/
inductive FillBranch where
  | textField
  | checkBox
  | skipped
  deriving DecidableEq, Repr

/-- The dispatch of `switch (item.fieldType)`: strict equality with the two
case labels, and no `default` arm. -/
def fillBranch (fieldType : JsVal) : FillBranch :=
  if fieldType = .str "PDFTextField" then .textField
  else if fieldType = .str "PDFCheckBox" then .checkBox
  else .skipped

/-- One iteration of `for (const item of fieldData)`. -/
def fillItem (form : PDFForm) (item : FieldEntry) : Except JsError PDFForm :=
  match fillBranch item.fieldType with
  | .textField => do
    let textField ← form.getTextField item.fieldID
    form.setText textField item.value
  | .checkBox => do
    let checkBox ← form.getCheckBox item.fieldID
    if item.value.truthy then pure (form.check checkBox) else pure (form.uncheck checkBox)
  | .skipped => pure form

/-- The loop `for (const item of fieldData)`; it stops at the first throw. -/
def fillFields (form : PDFForm) (fieldData : List FieldEntry) : Except JsError PDFForm :=
  match fieldData with
  | [] => .ok form
  | item :: rest =>
    match fillItem form item with
    | .error e => .error e
    | .ok form1 => fillFields form1 rest

/-- The path of the bundled font, `path.join(__dirname, '..', 'fonts',
'AngsanaNew.ttf')`. -/
def fontPath : String := "fonts/AngsanaNew.ttf"

/-- `fillPdfWithFormData(filePath, fieldData)`; the `catch` clause rethrows. -/
def fillPdfWithFormData (fs : FileSystem) (filePath : String) (fieldData : List FieldEntry) :
    Except JsError FilledPdf := do
  let pdfBuffer ← readFile fs filePath
  let pdfDoc ← PDFDocument.load pdfBuffer
  let fontBytes ← readFile fs fontPath
  let _customFont ← embedFont fontBytes
  let form ← pdfDoc.getForm
  let form1 ← fillFields form fieldData
  form1.flattenAndSave

/-! ## `src/routes/api-v1.js`: the template store -/

/-- The template directory, `path.join(__dirname, '..', 'template')`. -/
def templateDirectory : String := "template"

/-- `path.join(__dirname, '..', 'template', fileName)` for a plain file name
(one without a slash that is neither `.` nor `..`). -/
def templatePath (fileName : String) : String :=
  templateDirectory ++ "/" ++ fileName

/-- A JSON response body. -/
inductive Body where
  | message (text : String)
  | report (r : FieldsReport)
  deriving DecidableEq, Repr

/-- An HTTP response: status code and body. `res.json(x)` alone answers 200. -/
structure Response where
  status : Nat
  body : Body
  deriving DecidableEq, Repr

/-- The handler of `GET /files/:fileName`. -/
def getFileFields (fs : FileSystem) (fileName : String) : Response :=
  let filePath := templatePath fileName
  if !existsSync fs filePath then
    ⟨404, .message "File not found."⟩
  else
    match getAllFormFieldsAndValues fs filePath with
    | .ok fieldAndType => ⟨200, .report fieldAndType⟩
    | .error _ => ⟨500, .message "Error reading the file."⟩

/-- The handler of `DELETE /files/:fileName`: the response and the
filesystem it leaves. -/
def deleteFile (fs : FileSystem) (fileName : String) : Response × FileSystem :=
  let filePath := templatePath fileName
  if !existsSync fs filePath then
    (⟨404, .message "File not found."⟩, fs)
  else
    match unlinkSync fs filePath with
    | .ok fs1 => (⟨200, .message "File deleted successfully."⟩, fs1)
    | .error _ => (⟨500, .message "Error deleting the file."⟩, fs)

/-! ## `storage.filename`: the name an upload is stored under -/

/-- The decimal digit character of `n % 10`. -/
def digitChar (n : Nat) : Char :=
  Char.ofNat (48 + n % 10)

/-- Two decimal digits. -/
def pad2 (n : Nat) : List Char :=
  [digitChar (n / 10), digitChar n]

/-- Three decimal digits. -/
def pad3 (n : Nat) : List Char :=
  [digitChar (n / 100), digitChar (n / 10), digitChar n]

/-- Four decimal digits. -/
def pad4 (n : Nat) : List Char :=
  [digitChar (n / 1000), digitChar (n / 100), digitChar (n / 10), digitChar n]

/-- Six decimal digits. -/
def pad6 (n : Nat) : List Char :=
  [digitChar (n / 100000), digitChar (n / 10000), digitChar (n / 1000), digitChar (n / 100),
    digitChar (n / 10), digitChar n]

/-- Day of the 400-year era of a day count since 1970-01-01, the era starting
on 1 March of a year divisible by 400. -/
def dayOfEra (days : Nat) : Nat := (days + 719468) % 146097

/-- Century of the era, 0 to 3: the first three have 36524 days, the last one
more. -/
def centuryOfEra (doe : Nat) : Nat := min (doe / 36524) 3

/-- Day of the century. -/
def dayOfCentury (doe : Nat) : Nat := doe - 36524 * centuryOfEra doe

/-- Four-year group of the century, 0 to 24, of 1461 days each. -/
def quadOfCentury (doe : Nat) : Nat := min (dayOfCentury doe / 1461) 24

/-- Day of the four-year group. -/
def dayOfQuad (doe : Nat) : Nat := dayOfCentury doe - 1461 * quadOfCentury doe

/-- Year of the four-year group, 0 to 3: the first three have 365 days. -/
def yearOfQuad (doe : Nat) : Nat := min (dayOfQuad doe / 365) 3

/-- Year of the era, 0 to 399, years running from 1 March. -/
def yearOfEra (doe : Nat) : Nat :=
  100 * centuryOfEra doe + 4 * quadOfCentury doe + yearOfQuad doe

/-- Day of the year, counted from 1 March. -/
def dayOfYear (doe : Nat) : Nat := dayOfQuad doe - 365 * yearOfQuad doe

/-- Month index counted from March (0) to February (11). -/
def monthFromMarch (doy : Nat) : Nat := (5 * doy + 2) / 153

/-- `MonthFromTime + 1`: the UTC month, 1 to 12, of a day count. -/
def monthOfDays (days : Nat) : Nat :=
  let mp := monthFromMarch (dayOfYear (dayOfEra days))
  if mp < 10 then mp + 3 else mp - 9

/-- `DateFromTime`: the UTC day of the month of a day count. -/
def dateOfDays (days : Nat) : Nat :=
  let doy := dayOfYear (dayOfEra days)
  doy - (153 * monthFromMarch doy + 2) / 5 + 1

/-- `YearFromTime`: the UTC year of a day count. -/
def yearOfDays (days : Nat) : Nat :=
  yearOfEra (dayOfEra days) + (days + 719468) / 146097 * 400
    + (if monthOfDays days ≤ 2 then 1 else 0)

/-- The year part of `toISOString`: four digits up to 9999, a sign and six
digits beyond. -/
def isoYear (y : Nat) : List Char :=
  if y ≤ 9999 then pad4 y else '+' :: pad6 y

/-- `new Date(t).toISOString()` for `t` milliseconds since the epoch:
`YYYY-MM-DDTHH:mm:ss.sssZ`. -/
def toISOString (t : Nat) : List Char :=
  let days := t / 86400000
  let msInDay := t % 86400000
  isoYear (yearOfDays days) ++ ['-'] ++ pad2 (monthOfDays days) ++ ['-'] ++ pad2 (dateOfDays days)
    ++ ['T'] ++ pad2 (msInDay / 3600000) ++ [':'] ++ pad2 (msInDay / 60000 % 60) ++ [':']
    ++ pad2 (msInDay / 1000 % 60) ++ ['.'] ++ pad3 (t % 1000) ++ ['Z']

/-- `s.replace(/:/g, '-')`: every colon becomes a dash. -/
def replaceAllColons (s : List Char) : List Char :=
  s.map (fun c => if c = ':' then '-' else c)

/-- `s.replace('T', '-')`: the first `T` becomes a dash. -/
def replaceFirstT (s : List Char) : List Char :=
  match s with
  | [] => []
  | c :: rest => if c = 'T' then '-' :: rest else c :: replaceFirstT rest

/-- `s.split('.')[0]`: what stands before the first dot. -/
def splitDotHead (s : List Char) : List Char :=
  s.takeWhile (fun c => c ≠ '.')

/-- The `timestamp` of `storage.filename` when the clock reads `now`
milliseconds since the epoch. -/
def timestamp (now : Nat) : String :=
  String.mk (splitDotHead (replaceFirstT (replaceAllColons (toISOString now))))

/-- The two functions of the `path` module that `storage.filename` calls. -/
structure PathModule where
  basename : String → String → String
  extname : String → String

/-- `storage.filename`: the name passed to `cb` for an upload whose original
name is `originalname`, when the clock reads `now`. -/
def storageFilename (path : PathModule) (now : Nat) (originalname : String) : String :=
  path.basename originalname (path.extname originalname) ++ "-" ++ timestamp now
    ++ path.extname originalname

/-- The extension of a path component: from its last dot on, and empty when it
has no dot, starts with its only dot, or is `..`. -/
def extnameChars (b : List Char) : List Char :=
  let tail := (b.reverse.takeWhile (fun c => c ≠ '.')).reverse
  if '.' ∉ b then []
  else if b = ['.', '.'] then []
  else if tail.length + 1 = b.length then []
  else '.' :: tail

/-- The POSIX `path` module on the two calls of `storage.filename`. -/
def posixPath : PathModule where
  extname := fun p => String.mk (extnameChars (lastComponent p.data))
  basename := fun p ext =>
    let b := lastComponent p.data
    if ext.data.length < b.length ∧ ext.data.length ≠ 0 ∧ b.drop (b.length - ext.data.length) = ext.data then
      String.mk (b.take (b.length - ext.data.length))
    else String.mk b

/-- The stamp `YYYY-MM-DD-HH-MM-SS` of a UTC second (seconds since the epoch). -/
def stampOfSecond (sec : Nat) : String :=
  let days := sec / 86400
  let s := sec % 86400
  String.mk (pad4 (yearOfDays days) ++ ['-'] ++ pad2 (monthOfDays days) ++ ['-']
    ++ pad2 (dateOfDays days) ++ ['-'] ++ pad2 (s / 3600) ++ ['-'] ++ pad2 (s / 60 % 60) ++ ['-']
    ++ pad2 (s % 60))

/-- The first instant of the year 10000, in milliseconds since the epoch. -/
def yearTenThousand : Nat := 253402300800000


/-- `DayFromYear(y)` of ECMAScript, the day count of 1 January of the year
`y`, for `y` from 1970 on. -/
def dayFromYear (y : Nat) : Nat :=
  365 * (y - 1970) + (y - 1969) / 4 - (y - 1901) / 100 + (y - 1601) / 400

/-- A character that none of the three rewriting steps of `timestamp`
touches: not a colon, not `T`, not a dot. -/
def plainChar (c : Char) : Prop := c ≠ ':' ∧ c ≠ 'T' ∧ c ≠ '.'

/-! ## Sample store -/

/-- A template with a text field `Name` and a checkbox `Agree`, both empty. -/
def sampleTemplate : PDFDocument :=
  ⟨true, true, [⟨"Name", .PDFTextField, "", false⟩, ⟨"Agree", .PDFCheckBox, "", false⟩]⟩

/-- A template whose fields store values: a text field `A` holding `old` and
a checked checkbox `B`. -/
def prefilledTemplate : PDFDocument :=
  ⟨true, true, [⟨"A", .PDFTextField, "old", false⟩, ⟨"B", .PDFCheckBox, "", true⟩]⟩

/-- A template whose only field is a text field without a name. -/
def unnamedTemplate : PDFDocument :=
  ⟨true, true, [⟨"", .PDFTextField, "", false⟩]⟩

/-- A filesystem with the bundled font, three templates and a file in the
template directory that is not a PDF. -/
def sampleFs : FileSystem :=
  [(fontPath, .file .font),
   ("template/form.pdf", .file (.pdf sampleTemplate)),
   ("template/prefilled.pdf", .file (.pdf prefilledTemplate)),
   ("template/unnamed.pdf", .file (.pdf unnamedTemplate)),
   ("template/broken.pdf", .file .other)]

/-! ## Lemmas on the form model -/

/-- Entries the `switch` has a case for. -/
def supported (e : FieldEntry) : Prop :=
  e.fieldType = .str "PDFTextField" ∨ e.fieldType = .str "PDFCheckBox"

instance (e : FieldEntry) : Decidable (supported e) := by
  unfold supported; infer_instance

theorem fillBranch_skipped_iff (t : JsVal) :
    fillBranch t = .skipped ↔ ¬ (t = .str "PDFTextField" ∨ t = .str "PDFCheckBox") := by
  unfold fillBranch
  by_cases h1 : t = .str "PDFTextField"
  · simp [h1]
  · by_cases h2 : t = .str "PDFCheckBox"
    · simp [h2]
    · simp [h1, h2]

theorem fillItem_skipped (form : PDFForm) (e : FieldEntry) (h : ¬ supported e) :
    fillItem form e = .ok form := by
  have := (fillBranch_skipped_iff e.fieldType).2 h
  simp [fillItem, this, pure, Except.pure]

theorem updateField_map_name (fields : List PDFField) (name : String) (g : PDFField)
    (hg : g.name = name) : (updateField fields name g).map (fun f => f.name) = fields.map (fun f => f.name) := by
  induction fields with
  | nil => rfl
  | cons f rest ih =>
    unfold updateField
    split
    · next h => simp [hg, h]
    · simp [ih]

theorem updateField_getElem?_of_ne (fields : List PDFField) (name : String) (g : PDFField)
    (i : Nat) (f : PDFField) (hi : fields[i]? = some f) (hne : f.name ≠ name) :
    (updateField fields name g)[i]? = some f := by
  induction fields generalizing i with
  | nil => simp at hi
  | cons f0 rest ih =>
    unfold updateField
    cases i with
    | zero =>
      simp at hi
      subst hi
      simp [hne]
    | succ j =>
      simp at hi
      split
      · simpa using hi
      · simpa using ih j hi

theorem getFieldMaybe_name (fields : List PDFField) (n : String) (f : PDFField)
    (h : getFieldMaybe fields n = some f) : f.name = n := by
  unfold getFieldMaybe at h
  have := List.find?_some h
  simpa using this

theorem getFieldMaybe_eq_none_iff (fields : List PDFField) (n : String) :
    getFieldMaybe fields n = none ↔ ∀ f ∈ fields, f.name ≠ n := by
  unfold getFieldMaybe
  simp

theorem getFieldOfClass_ok_iff (form : PDFForm) (cls : FieldClass) (name : JsVal) (f : PDFField) :
    form.getFieldOfClass cls name = .ok f ↔
      ∃ n, name = .str n ∧ form.fieldsReadable = true ∧ getFieldMaybe form.fields n = some f
        ∧ f.cls = cls := by
  cases name <;> simp [PDFForm.getFieldOfClass, PDFForm.getFields]
  next n =>
  cases hr : form.fieldsReadable <;> simp
  cases hf : getFieldMaybe form.fields n <;> simp
  next g =>
  by_cases hc : g.cls = cls <;> simp [hc]
  · intro h; subst h; exact hc
  · intro h; subst h; exact hc

/-- What one iteration of the loop does when it does not throw. -/
theorem fillItem_ok_cases (form form1 : PDFForm) (e : FieldEntry) (h : fillItem form e = .ok form1) :
    form1 = form ∨ ∃ n f g, e.fieldID = .str n ∧ getFieldMaybe form.fields n = some f ∧ g.name = n
      ∧ g.cls = f.cls ∧ form1 = { form with fields := updateField form.fields n g } := by
  unfold fillItem at h
  cases hb : fillBranch e.fieldType <;> rw [hb] at h <;> simp only [bind, Except.bind, pure, Except.pure] at h
  · cases hg : form.getTextField e.fieldID <;> rw [hg] at h <;> simp only at h
    · simp at h
    · next f =>
      obtain ⟨n, hn, -, hf, -⟩ := (getFieldOfClass_ok_iff _ _ _ _).1 hg
      have hname := getFieldMaybe_name _ _ _ hf
      right
      unfold PDFForm.setText at h
      cases hv : e.value <;> rw [hv] at h <;> simp at h
      · exact ⟨n, f, { f with text := "" }, hn, hf, hname, rfl, by rw [← h, hname]⟩
      · next s => exact ⟨n, f, { f with text := s }, hn, hf, hname, rfl, by rw [← h, hname]⟩
  · cases hg : form.getCheckBox e.fieldID <;> rw [hg] at h <;> simp only at h
    · simp at h
    · next f =>
      obtain ⟨n, hn, -, hf, -⟩ := (getFieldOfClass_ok_iff _ _ _ _).1 hg
      have hname := getFieldMaybe_name _ _ _ hf
      right
      cases hv : e.value.truthy <;> simp [hv] at h
      · exact ⟨n, f, { f with checked := false }, hn, hf, hname, rfl, by rw [← h, PDFForm.uncheck, hname]⟩
      · exact ⟨n, f, { f with checked := true }, hn, hf, hname, rfl, by rw [← h, PDFForm.check, hname]⟩
  · left
    simp at h
    exact h.symm

/-- A successful iteration keeps the names of the fields, in order, and
whether the field list can be enumerated. -/
theorem fillItem_ok_names (form form1 : PDFForm) (e : FieldEntry) (h : fillItem form e = .ok form1) :
    form1.fields.map (fun f => f.name) = form.fields.map (fun f => f.name)
      ∧ form1.fieldsReadable = form.fieldsReadable := by
  rcases fillItem_ok_cases form form1 e h with h1 | ⟨n, f, g, -, -, hg, -, h1⟩
  · subst h1; exact ⟨rfl, rfl⟩
  · subst h1; exact ⟨updateField_map_name _ _ _ hg, rfl⟩

/-- A successful iteration leaves every field alone whose name is not the
entry's `fieldID`. -/
theorem fillItem_ok_frame (form form1 : PDFForm) (e : FieldEntry) (h : fillItem form e = .ok form1)
    (i : Nat) (f : PDFField) (hi : form.fields[i]? = some f) (hne : e.fieldID ≠ .str f.name) :
    form1.fields[i]? = some f := by
  rcases fillItem_ok_cases form form1 e h with h1 | ⟨n, f0, g, hn, -, -, -, h1⟩
  · subst h1; exact hi
  · subst h1
    apply updateField_getElem?_of_ne _ _ _ _ _ hi
    intro hfn
    exact hne (by rw [hn, hfn])

/-- A successful run of the loop keeps the names of the fields. -/
theorem fillFields_ok_names (req : List FieldEntry) (form form1 : PDFForm)
    (h : fillFields form req = .ok form1) :
    form1.fields.map (fun f => f.name) = form.fields.map (fun f => f.name)
      ∧ form1.fieldsReadable = form.fieldsReadable := by
  induction req generalizing form with
  | nil =>
    simp [fillFields] at h
    subst h; exact ⟨rfl, rfl⟩
  | cons e rest ih =>
    unfold fillFields at h
    cases hi : fillItem form e <;> rw [hi] at h <;> simp only at h
    · simp at h
    · next form0 =>
      have h0 := fillItem_ok_names _ _ _ hi
      have h1 := ih form0 h
      exact ⟨h1.1.trans h0.1, h1.2.trans h0.2⟩

/-- A successful run of the loop leaves every field alone whose name is the
`fieldID` of no entry. -/
theorem fillFields_ok_frame (req : List FieldEntry) (form form1 : PDFForm)
    (h : fillFields form req = .ok form1) (i : Nat) (f : PDFField)
    (hi : form.fields[i]? = some f) (hne : ∀ e ∈ req, e.fieldID ≠ .str f.name) :
    form1.fields[i]? = some f := by
  induction req generalizing form with
  | nil =>
    simp [fillFields] at h
    subst h; exact hi
  | cons e rest ih =>
    unfold fillFields at h
    cases hit : fillItem form e <;> rw [hit] at h <;> simp only at h
    · simp at h
    · next form0 =>
      have h0 := fillItem_ok_frame _ _ _ hit i f hi (hne e (List.mem_cons_self _ _))
      exact ih form0 h h0 (fun e1 he1 => hne e1 (List.mem_cons_of_mem _ he1))

/-- An entry with a case in the `switch` whose `fieldID` names no field makes
its iteration throw. -/
theorem fillItem_error_of_no_field (form : PDFForm) (e : FieldEntry) (hs : supported e)
    (hno : ∀ f ∈ form.fields, e.fieldID ≠ .str f.name) : ∃ err, fillItem form e = .error err := by
  cases hit : fillItem form e with
  | error err => exact ⟨err, rfl⟩
  | ok form1 =>
    exfalso
    rcases fillItem_ok_cases form form1 e hit with h1 | ⟨n, f, g, hn, hf, -, -, -⟩
    · -- the entry was skipped or the loop body returned the form unchanged
      unfold fillItem at hit
      cases hb : fillBranch e.fieldType <;> rw [hb] at hit
        <;> simp only [bind, Except.bind, pure, Except.pure] at hit
      · cases hg : form.getTextField e.fieldID <;> rw [hg] at hit <;> simp only at hit
        · simp at hit
        · next f =>
          obtain ⟨n, hn, -, hf, -⟩ := (getFieldOfClass_ok_iff _ _ _ _).1 hg
          have hmem : f ∈ form.fields := List.mem_of_find?_eq_some hf
          exact hno f hmem (by rw [hn, getFieldMaybe_name _ _ _ hf])
      · cases hg : form.getCheckBox e.fieldID <;> rw [hg] at hit <;> simp only at hit
        · simp at hit
        · next f =>
          obtain ⟨n, hn, -, hf, -⟩ := (getFieldOfClass_ok_iff _ _ _ _).1 hg
          have hmem : f ∈ form.fields := List.mem_of_find?_eq_some hf
          exact hno f hmem (by rw [hn, getFieldMaybe_name _ _ _ hf])
      · exact (fillBranch_skipped_iff _).1 hb hs
    · have hmem : f ∈ form.fields := List.mem_of_find?_eq_some hf
      exact hno f hmem (by rw [hn, getFieldMaybe_name _ _ _ hf])

/-- A request with a supported entry whose `fieldID` names no field makes the
loop throw. -/
theorem fillFields_error_of_no_field (req : List FieldEntry) (form : PDFForm) (e : FieldEntry)
    (he : e ∈ req) (hs : supported e) (hno : ∀ f ∈ form.fields, e.fieldID ≠ .str f.name) :
    ∃ err, fillFields form req = .error err := by
  induction req generalizing form with
  | nil => simp at he
  | cons e0 rest ih =>
    unfold fillFields
    cases hit : fillItem form e0 with
    | error err => exact ⟨err, rfl⟩
    | ok form0 =>
      simp only
      rcases List.mem_cons.1 he with h0 | h0
      · subst h0
        obtain ⟨err, herr⟩ := fillItem_error_of_no_field form e hs hno
        rw [herr] at hit
        simp at hit
      · apply ih form0 h0
        intro f hf
        have hn := (fillItem_ok_names _ _ _ hit).1
        have : f.name ∈ form0.fields.map (fun f => f.name) := List.mem_map_of_mem _ hf
        rw [hn] at this
        obtain ⟨f1, hf1, hname⟩ := List.mem_map.1 this
        have := hno f1 hf1
        simpa [hname] using this

/-- Skipped entries do not matter to the loop. -/
theorem fillFields_filter_supported (req : List FieldEntry) (form : PDFForm) :
    fillFields form (req.filter (fun e => decide (supported e))) = fillFields form req := by
  induction req generalizing form with
  | nil => rfl
  | cons e rest ih =>
    by_cases hs : supported e
    · simp only [List.filter_cons, hs, decide_True, if_true]
      unfold fillFields
      cases fillItem form e with
      | error err => rfl
      | ok form0 => exact ih form0
    · simp only [List.filter_cons, hs, decide_False]
      conv_rhs => unfold fillFields
      rw [fillItem_skipped form e hs]
      exact ih form

theorem getFieldOfClass_noSuchField (form : PDFForm) (cls : FieldClass) (name : JsVal) (m : String)
    (h : form.getFieldOfClass cls name = .error (.NoSuchFieldError m)) :
    name = .str m ∧ getFieldMaybe form.fields m = none := by
  cases name <;> simp [PDFForm.getFieldOfClass, PDFForm.getFields] at h
  next n =>
  cases hr : form.fieldsReadable <;> simp [hr] at h
  cases hf : getFieldMaybe form.fields n <;> simp [hf] at h
  · subst h; exact ⟨rfl, hf⟩
  · next g => by_cases hc : g.cls = cls <;> simp [hc] at h

/-- An iteration throws `NoSuchFieldError` only for an entry with a case in the
`switch` whose `fieldID` is a string that names no field. -/
theorem fillItem_noSuchField (form : PDFForm) (e : FieldEntry) (m : String)
    (h : fillItem form e = .error (.NoSuchFieldError m)) :
    supported e ∧ e.fieldID = .str m ∧ ∀ f ∈ form.fields, f.name ≠ m := by
  have hsup : supported e := by
    by_contra hs
    rw [fillItem_skipped form e hs] at h
    simp at h
  refine ⟨hsup, ?_⟩
  unfold fillItem at h
  cases hb : fillBranch e.fieldType <;> rw [hb] at h
    <;> simp only [bind, Except.bind, pure, Except.pure] at h
  · cases hg : form.getTextField e.fieldID <;> rw [hg] at h <;> simp only at h
    · simp at h
      subst h
      obtain ⟨h1, h2⟩ := getFieldOfClass_noSuchField _ _ _ _ hg
      exact ⟨h1, (getFieldMaybe_eq_none_iff _ _).1 h2⟩
    · unfold PDFForm.setText at h
      cases hv : e.value <;> rw [hv] at h <;> simp at h
  · cases hg : form.getCheckBox e.fieldID <;> rw [hg] at h <;> simp only at h
    · simp at h
      subst h
      obtain ⟨h1, h2⟩ := getFieldOfClass_noSuchField _ _ _ _ hg
      exact ⟨h1, (getFieldMaybe_eq_none_iff _ _).1 h2⟩
    · cases hv : e.value.truthy <;> simp [hv] at h
  · simp at h

/-- The loop throws `NoSuchFieldError` only when the request has an entry with
a case in the `switch` whose `fieldID` names no field. -/
theorem fillFields_noSuchField (req : List FieldEntry) (form : PDFForm) (m : String)
    (h : fillFields form req = .error (.NoSuchFieldError m)) :
    ∃ e ∈ req, supported e ∧ e.fieldID = .str m ∧ ∀ f ∈ form.fields, f.name ≠ m := by
  induction req generalizing form with
  | nil => simp [fillFields] at h
  | cons e rest ih =>
    unfold fillFields at h
    cases hit : fillItem form e <;> rw [hit] at h <;> simp only at h
    · simp at h
      subst h
      exact ⟨e, List.mem_cons_self _ _, fillItem_noSuchField _ _ _ hit⟩
    · next form0 =>
      obtain ⟨e1, he1, hs, hid, hno⟩ := ih form0 h
      refine ⟨e1, List.mem_cons_of_mem _ he1, hs, hid, ?_⟩
      intro f hf hname
      have hn := (fillItem_ok_names _ _ _ hit).1
      have : f.name ∈ form.fields.map (fun f => f.name) := List.mem_map_of_mem _ hf
      rw [← hn] at this
      obtain ⟨f1, hf1, hname1⟩ := List.mem_map.1 this
      exact hno f1 hf1 (hname1.trans hname)

/-- How `fillPdfWithFormData` runs on a stored template. -/
theorem fillPdfWithFormData_template (fs : FileSystem) (filePath : String) (doc : PDFDocument)
    (req : List FieldEntry) (htpl : readFile fs filePath = .ok (.pdf doc)) :
    fillPdfWithFormData fs filePath req =
      (match readFile fs fontPath with
        | .error e => .error e
        | .ok fontBytes =>
          match embedFont fontBytes with
          | .error e => .error e
          | .ok _ =>
            match doc.getForm with
            | .error e => .error e
            | .ok form =>
              match fillFields form req with
              | .error e => .error e
              | .ok form1 => form1.flattenAndSave) := by
  unfold fillPdfWithFormData
  simp only [bind, Except.bind, htpl, PDFDocument.load]
  cases readFile fs fontPath with
  | error e => rfl
  | ok fontBytes =>
    simp only
    cases embedFont fontBytes with
    | error e => rfl
    | ok u =>
      simp only
      cases doc.getForm with
      | error e => rfl
      | ok form =>
        simp only
        cases fillFields form req <;> rfl

/-- C1 (amended): on a stored template, a fill request with an entry whose
`fieldType` is `PDFTextField` or `PDFCheckBox` and whose `fieldID` names no
field of the template makes `fillPdfWithFormData` throw; no output is
returned. -/
theorem fill_fails_on_missing_field (fs : FileSystem) (filePath : String) (doc : PDFDocument)
    (req : List FieldEntry) (e : FieldEntry)
    (htpl : readFile fs filePath = .ok (.pdf doc))
    (he : e ∈ req) (hs : supported e) (hno : ∀ f ∈ doc.fields, e.fieldID ≠ .str f.name) :
    ∃ err, fillPdfWithFormData fs filePath req = .error err := by
  rw [fillPdfWithFormData_template fs filePath doc req htpl]
  cases readFile fs fontPath with
  | error e => exact ⟨e, rfl⟩
  | ok fontBytes =>
    simp only
    cases embedFont fontBytes with
    | error e => exact ⟨e, rfl⟩
    | ok u =>
      simp only
      cases hform : doc.getForm with
      | error e => exact ⟨e, rfl⟩
      | ok form =>
        simp only
        have hfields : form.fields = doc.fields := by
          unfold PDFDocument.getForm at hform
          split at hform
          · simp at hform; rw [← hform]
          · simp at hform
        obtain ⟨err, herr⟩ := fillFields_error_of_no_field req form e he hs (by rw [hfields]; exact hno)
        exact ⟨err, by rw [herr]⟩

/-- C1, witness: the request naming the missing text field `Missing` on the
sample template. -/
theorem fill_fails_on_missing_field_witness :
    ∃ err, fillPdfWithFormData sampleFs "template/form.pdf"
      [⟨.str "Missing", .str "PDFTextField", .str "x"⟩] = .error err :=
  fill_fails_on_missing_field sampleFs "template/form.pdf" sampleTemplate
    [⟨.str "Missing", .str "PDFTextField", .str "x"⟩] ⟨.str "Missing", .str "PDFTextField", .str "x"⟩
    (by decide) (by decide) (by decide) (by decide)

/-- C1, counterexample: the entry names no field of the sample template, its
`fieldType` is neither of the two cases, and the fill returns a document. -/
theorem fill_missing_field_other_type_succeeds :
    (∀ f ∈ sampleTemplate.fields, JsVal.str "Missing" ≠ .str f.name)
      ∧ fillPdfWithFormData sampleFs "template/form.pdf"
          [⟨.str "Missing", .str "PDFDropdown", .str "x"⟩] = .ok ⟨sampleTemplate.fields⟩ := by
  decide

/-- C7: entries whose `fieldType` is neither `PDFTextField` nor `PDFCheckBox`
are ignored: the result of `fillPdfWithFormData`, a document or the error
thrown, is that of the request without them. -/
theorem fill_ignores_unsupported_entries (fs : FileSystem) (filePath : String)
    (req : List FieldEntry) :
    fillPdfWithFormData fs filePath (req.filter (fun e => decide (supported e)))
      = fillPdfWithFormData fs filePath req := by
  unfold fillPdfWithFormData
  simp only [fillFields_filter_supported]

/-- C6 (amended): when `fillPdfWithFormData` succeeds on a stored template,
the output has one item per field of the template, and every field whose name
is the `fieldID` of no entry is rendered in the state the template stores for
it (so empty or unchecked when the template stores that). -/
theorem fill_leaves_unmentioned_fields (fs : FileSystem) (filePath : String) (doc : PDFDocument)
    (req : List FieldEntry) (out : FilledPdf)
    (htpl : readFile fs filePath = .ok (.pdf doc))
    (hok : fillPdfWithFormData fs filePath req = .ok out) :
    out.rendered.length = doc.fields.length
      ∧ ∀ (i : Nat) (f : PDFField), doc.fields[i]? = some f →
          (∀ e ∈ req, e.fieldID ≠ .str f.name) → out.rendered[i]? = some f := by
  rw [fillPdfWithFormData_template fs filePath doc req htpl] at hok
  cases hfont : readFile fs fontPath <;> rw [hfont] at hok <;> simp only at hok
  · simp at hok
  next fontBytes =>
  cases hemb : embedFont fontBytes <;> rw [hemb] at hok <;> simp only at hok
  · simp at hok
  cases hform : doc.getForm <;> rw [hform] at hok <;> simp only at hok
  · simp at hok
  next form =>
  cases hfill : fillFields form req <;> rw [hfill] at hok <;> simp only at hok
  · simp at hok
  next form1 =>
  have hfields : form.fields = doc.fields := by
    unfold PDFDocument.getForm at hform
    split at hform
    · simp at hform; rw [← hform]
    · simp at hform
  have hout : out.rendered = form1.fields := by
    unfold PDFForm.flattenAndSave PDFForm.getFields at hok
    split at hok
    · simp at hok
    · next fields hfs =>
      split at hfs
      · simp at hfs hok
        rw [← hok, hfs]
      · simp at hfs
  constructor
  · have hn := (fillFields_ok_names req form form1 hfill).1
    have := congrArg List.length hn
    simp only [List.length_map] at this
    rw [hout, this, hfields]
  · intro i f hi hne
    rw [hout]
    exact fillFields_ok_frame req form form1 hfill i f (by rw [hfields]; exact hi) hne

/-- C6, witness: the sample template filled with an entry for `Name` only
keeps the checkbox `Agree` as stored. -/
theorem fill_leaves_unmentioned_fields_witness :
    (⟨[⟨"Name", .PDFTextField, "Jane", false⟩, ⟨"Agree", .PDFCheckBox, "", false⟩]⟩ : FilledPdf).rendered.length
        = sampleTemplate.fields.length
      ∧ ∀ (i : Nat) (f : PDFField), sampleTemplate.fields[i]? = some f →
          (∀ e ∈ [(⟨.str "Name", .str "PDFTextField", .str "Jane"⟩ : FieldEntry)],
            e.fieldID ≠ .str f.name) →
          (⟨[⟨"Name", .PDFTextField, "Jane", false⟩, ⟨"Agree", .PDFCheckBox, "", false⟩]⟩ : FilledPdf).rendered[i]?
            = some f :=
  fill_leaves_unmentioned_fields sampleFs "template/form.pdf" sampleTemplate
    [⟨.str "Name", .str "PDFTextField", .str "Jane"⟩]
    ⟨[⟨"Name", .PDFTextField, "Jane", false⟩, ⟨"Agree", .PDFCheckBox, "", false⟩]⟩
    (by decide) (by decide)

/-- C6, counterexample: filling the prefilled template with the empty request
succeeds; no entry names the text field `A` or the checkbox `B`, and in the
output `A` is not empty and `B` is not unchecked. -/
theorem fill_keeps_stored_values :
    ∃ out fa fb, fillPdfWithFormData sampleFs "template/prefilled.pdf" [] = .ok out
      ∧ out.rendered[0]? = some fa ∧ out.rendered[1]? = some fb
      ∧ (∀ e ∈ ([] : List FieldEntry), e.fieldID ≠ .str fa.name)
      ∧ (∀ e ∈ ([] : List FieldEntry), e.fieldID ≠ .str fb.name)
      ∧ fa.cls = .PDFTextField ∧ fa.text ≠ ""
      ∧ fb.cls = .PDFCheckBox ∧ fb.checked ≠ false :=
  ⟨⟨prefilledTemplate.fields⟩, ⟨"A", .PDFTextField, "old", false⟩, ⟨"B", .PDFCheckBox, "", true⟩,
    by decide, by decide, by decide, by simp, by simp, by decide, by decide, by decide, by decide⟩

/-- How `getAllFormFieldsAndValues` runs on a stored template whose form and
field list can be read. -/
theorem getAllFormFieldsAndValues_template (fs : FileSystem) (filePath : String)
    (doc : PDFDocument) (htpl : readFile fs filePath = .ok (.pdf doc))
    (hform : doc.formReadable = true) (hfields : doc.fieldsReadable = true) :
    getAllFormFieldsAndValues fs filePath
      = .ok ⟨some (basename filePath), some (doc.fields.map fieldEntry)⟩ := by
  simp [getAllFormFieldsAndValues, getAllFormFieldsAndValuesTry, htpl, PDFDocument.load,
    PDFDocument.getForm, PDFForm.getFields, hform, hfields, bind, Except.bind, pure, Except.pure]

/-- The entry reported for a field carries the class name, the name or the
placeholder, and the fixed value of the class. -/
theorem fieldEntry_eq (f : PDFField) :
    fieldEntry f = ⟨.str (if f.name = "" then "[Unnamed Field]" else f.name),
      .str f.cls.constructorName,
      if f.cls = .PDFTextField then .str "" else if f.cls = .PDFCheckBox then .bool false
        else .undefined⟩ := by
  cases f with
  | mk name cls text checked => cases cls <;> simp [fieldEntry, FieldClass.constructorName]

/-- C3 (amended): for a stored template whose form and field list can be read
and whose fields are `N` text fields and `M` checkboxes,
`getAllFormFieldsAndValues` returns `N + M` entries, one per field in document
order; each carries the field's name, or `[Unnamed Field]` when the name is
empty, the class name, and `""` for a text field and `false` for a checkbox,
whatever the field stores. -/
theorem introspection_lists_fields (fs : FileSystem) (filePath : String) (doc : PDFDocument)
    (htpl : readFile fs filePath = .ok (.pdf doc))
    (hform : doc.formReadable = true) (hfields : doc.fieldsReadable = true)
    (honly : ∀ f ∈ doc.fields, f.cls = .PDFTextField ∨ f.cls = .PDFCheckBox) :
    ∃ entries, getAllFormFieldsAndValues fs filePath
          = .ok ⟨some (basename filePath), some entries⟩
      ∧ entries.length = doc.fields.countP (fun f => f.cls = .PDFTextField)
          + doc.fields.countP (fun f => f.cls = .PDFCheckBox)
      ∧ entries.length = doc.fields.length
      ∧ ∀ (i : Nat) (f : PDFField), doc.fields[i]? = some f →
          entries[i]? = some ⟨.str (if f.name = "" then "[Unnamed Field]" else f.name),
            .str f.cls.constructorName,
            if f.cls = .PDFTextField then .str "" else .bool false⟩ := by
  refine ⟨doc.fields.map fieldEntry,
    getAllFormFieldsAndValues_template fs filePath doc htpl hform hfields, ?_, by simp, ?_⟩
  · rw [List.length_map, List.length_eq_countP_add_countP (fun f => decide (f.cls = .PDFTextField))]
    congr 1
    apply List.countP_congr
    intro f hf
    rcases honly f hf with h | h <;> simp [h]
  · intro i f hi
    rw [List.getElem?_map, hi, Option.map_some', fieldEntry_eq]
    rcases honly f (List.getElem?_mem hi) with h | h <;> simp [h]

/-- C3, witness: the prefilled template, one text field and one checkbox. -/
theorem introspection_lists_fields_witness :
    ∃ entries, getAllFormFieldsAndValues sampleFs "template/prefilled.pdf"
          = .ok ⟨some (basename "template/prefilled.pdf"), some entries⟩
      ∧ entries.length = prefilledTemplate.fields.countP (fun f => f.cls = .PDFTextField)
          + prefilledTemplate.fields.countP (fun f => f.cls = .PDFCheckBox)
      ∧ entries.length = prefilledTemplate.fields.length
      ∧ ∀ (i : Nat) (f : PDFField), prefilledTemplate.fields[i]? = some f →
          entries[i]? = some ⟨.str (if f.name = "" then "[Unnamed Field]" else f.name),
            .str f.cls.constructorName,
            if f.cls = .PDFTextField then .str "" else .bool false⟩ :=
  introspection_lists_fields sampleFs "template/prefilled.pdf" prefilledTemplate
    (by decide) (by decide) (by decide) (by decide)

/-- C3, counterexample: the only field of the unnamed template has the empty
name, and the entry reported for it carries `[Unnamed Field]`, not that name. -/
theorem introspection_renames_unnamed_field :
    unnamedTemplate.fields[0]? = some ⟨"", .PDFTextField, "", false⟩
      ∧ getAllFormFieldsAndValues sampleFs "template/unnamed.pdf"
          = .ok ⟨some "unnamed.pdf",
              some [⟨.str "[Unnamed Field]", .str "PDFTextField", .str ""⟩]⟩
      ∧ JsVal.str "[Unnamed Field]" ≠ .str "" := by
  decide

/-- C4: `getAllFormFieldsAndValues` never throws. When reading the file,
loading the PDF, obtaining the form or enumerating the fields throws, it
returns `{}`; otherwise it returns an object with a `fileName` and a `field`
list. -/
theorem introspection_swallows_errors (fs : FileSystem) (filePath : String) :
    (∃ r, getAllFormFieldsAndValues fs filePath = .ok r)
      ∧ (∀ err, readFile fs filePath = .error err →
          getAllFormFieldsAndValues fs filePath = .ok FieldsReport.empty)
      ∧ (∀ bytes err, readFile fs filePath = .ok bytes → PDFDocument.load bytes = .error err →
          getAllFormFieldsAndValues fs filePath = .ok FieldsReport.empty)
      ∧ (∀ bytes doc err, readFile fs filePath = .ok bytes → PDFDocument.load bytes = .ok doc →
          doc.getForm = .error err →
          getAllFormFieldsAndValues fs filePath = .ok FieldsReport.empty)
      ∧ (∀ bytes doc form err, readFile fs filePath = .ok bytes →
          PDFDocument.load bytes = .ok doc → doc.getForm = .ok form →
          form.getFields = .error err →
          getAllFormFieldsAndValues fs filePath = .ok FieldsReport.empty)
      ∧ (∀ bytes doc form fields, readFile fs filePath = .ok bytes →
          PDFDocument.load bytes = .ok doc → doc.getForm = .ok form →
          form.getFields = .ok fields →
          ∃ fileName field, getAllFormFieldsAndValues fs filePath
            = .ok ⟨some fileName, some field⟩) := by
  refine ⟨?_, ?_, ?_, ?_, ?_, ?_⟩
  · unfold getAllFormFieldsAndValues
    cases getAllFormFieldsAndValuesTry fs filePath with
    | error e => exact ⟨_, rfl⟩
    | ok r => exact ⟨_, rfl⟩
  · intro err h
    simp [getAllFormFieldsAndValues, getAllFormFieldsAndValuesTry, h, bind, Except.bind]
  · intro bytes err h1 h2
    simp [getAllFormFieldsAndValues, getAllFormFieldsAndValuesTry, h1, h2, bind, Except.bind]
  · intro bytes doc err h1 h2 h3
    simp [getAllFormFieldsAndValues, getAllFormFieldsAndValuesTry, h1, h2, h3, bind, Except.bind]
  · intro bytes doc form err h1 h2 h3 h4
    simp [getAllFormFieldsAndValues, getAllFormFieldsAndValuesTry, h1, h2, h3, h4, bind,
      Except.bind]
  · intro bytes doc form fields h1 h2 h3 h4
    exact ⟨basename filePath, fields.map fieldEntry, by
      simp [getAllFormFieldsAndValues, getAllFormFieldsAndValuesTry, h1, h2, h3, h4, bind,
        Except.bind, pure, Except.pure]⟩

/-- C10 (amended): on a stored template whose form and field list can be
read, the list `getAllFormFieldsAndValues` returns has, at the place of every
text field, an entry that takes the `PDFTextField` case of the fill loop and, at
the place of every checkbox, one that takes the `PDFCheckBox` case; and when no
text field or checkbox of the template has an empty name, passing that list to
`fillPdfWithFormData` does not end in a `NoSuchFieldError`. -/
theorem introspection_feeds_fill (fs : FileSystem) (filePath : String) (doc : PDFDocument)
    (htpl : readFile fs filePath = .ok (.pdf doc))
    (hform : doc.formReadable = true) (hfields : doc.fieldsReadable = true) :
    ∃ entries, getAllFormFieldsAndValues fs filePath
          = .ok ⟨some (basename filePath), some entries⟩
      ∧ (∀ (i : Nat) (f : PDFField), doc.fields[i]? = some f →
          ∃ e, entries[i]? = some e
            ∧ (f.cls = .PDFTextField → fillBranch e.fieldType = .textField)
            ∧ (f.cls = .PDFCheckBox → fillBranch e.fieldType = .checkBox))
      ∧ ((∀ f ∈ doc.fields, f.cls = .PDFTextField ∨ f.cls = .PDFCheckBox → f.name ≠ "") →
          ∀ m, fillPdfWithFormData fs filePath entries ≠ .error (.NoSuchFieldError m)) := by
  refine ⟨doc.fields.map fieldEntry,
    getAllFormFieldsAndValues_template fs filePath doc htpl hform hfields, ?_, ?_⟩
  · intro i f hi
    refine ⟨fieldEntry f, by rw [List.getElem?_map, hi, Option.map_some'], ?_, ?_⟩
    · intro h
      rw [fieldEntry_eq, h]
      rfl
    · intro h
      rw [fieldEntry_eq, h]
      rfl
  · intro hnamed m hfail
    rw [fillPdfWithFormData_template fs filePath doc _ htpl] at hfail
    cases hfont : readFile fs fontPath <;> rw [hfont] at hfail <;> simp only at hfail
    · next e =>
      unfold readFile at hfont
      split at hfont <;> simp at hfont <;> subst hfont <;> simp at hfail
    next fontBytes =>
    cases hemb : embedFont fontBytes <;> rw [hemb] at hfail <;> simp only at hfail
    · unfold embedFont at hemb
      split at hemb <;> simp at hemb
      subst hemb
      simp at hfail
    simp only [PDFDocument.getForm, hform, if_true] at hfail
    cases hfill : fillFields ⟨doc.fieldsReadable, doc.fields⟩ (doc.fields.map fieldEntry)
      <;> rw [hfill] at hfail <;> simp only at hfail
    · simp at hfail
      subst hfail
      obtain ⟨e, he, hs, hid, hno⟩ := fillFields_noSuchField _ _ _ hfill
      obtain ⟨f, hf, hfe⟩ := List.mem_map.1 he
      subst hfe
      have hcls : f.cls = .PDFTextField ∨ f.cls = .PDFCheckBox := by
        unfold supported at hs
        rw [fieldEntry_eq] at hs
        cases hc : f.cls <;> rw [hc] at hs <;> simp [FieldClass.constructorName] at hs <;> simp
      have hname := hnamed f hf hcls
      rw [fieldEntry_eq] at hid
      simp [hname] at hid
      exact hno f hf hid
    · next form1 =>
      have hr := (fillFields_ok_names _ _ _ hfill).2
      simp [PDFForm.flattenAndSave, PDFForm.getFields, hr, hfields] at hfail

/-- C10, witness: the sample template, whose two fields are named. -/
theorem introspection_feeds_fill_witness :
    ∃ entries, getAllFormFieldsAndValues sampleFs "template/form.pdf"
          = .ok ⟨some (basename "template/form.pdf"), some entries⟩
      ∧ (∀ (i : Nat) (f : PDFField), sampleTemplate.fields[i]? = some f →
          ∃ e, entries[i]? = some e
            ∧ (f.cls = .PDFTextField → fillBranch e.fieldType = .textField)
            ∧ (f.cls = .PDFCheckBox → fillBranch e.fieldType = .checkBox))
      ∧ ((∀ f ∈ sampleTemplate.fields,
            f.cls = .PDFTextField ∨ f.cls = .PDFCheckBox → f.name ≠ "") →
          ∀ m, fillPdfWithFormData sampleFs "template/form.pdf" entries
            ≠ .error (.NoSuchFieldError m)) :=
  introspection_feeds_fill sampleFs "template/form.pdf" sampleTemplate
    (by decide) (by decide) (by decide)

/-- C10, counterexample: the list reported for the unnamed template, passed
back as the fill request on that template, ends in `NoSuchFieldError`. -/
theorem introspection_placeholder_breaks_fill :
    getAllFormFieldsAndValues sampleFs "template/unnamed.pdf"
        = .ok ⟨some "unnamed.pdf", some [⟨.str "[Unnamed Field]", .str "PDFTextField", .str ""⟩]⟩
      ∧ fillPdfWithFormData sampleFs "template/unnamed.pdf"
          [⟨.str "[Unnamed Field]", .str "PDFTextField", .str ""⟩]
          = .error (.NoSuchFieldError "[Unnamed Field]") := by
  decide

/-! ## The template store -/

/-- C5, the code at the failing input: `template/broken.pdf` exists and does
not parse as a PDF, and `GET /files/broken.pdf` answers 200 with the body
`{}`, not 500. -/
theorem getFileFields_unparsable_file_answers_200 :
    existsSync sampleFs (templatePath "broken.pdf") = true
      ∧ (∃ bytes, readFile sampleFs (templatePath "broken.pdf") = .ok bytes
          ∧ PDFDocument.load bytes = .error .parseError)
      ∧ getFileFields sampleFs "broken.pdf" = ⟨200, .report FieldsReport.empty⟩ :=
  ⟨by decide, ⟨.other, by decide, by decide⟩, by decide⟩

theorem lookup_filter_self (fs : FileSystem) (p : String) :
    FileSystem.lookup (fs.filter (fun qe => qe.1 ≠ p)) p = none := by
  induction fs with
  | nil => rfl
  | cons qe rest ih =>
    obtain ⟨q, e⟩ := qe
    by_cases h : q = p
    · simp [List.filter_cons, h]
      simpa using ih
    · simp [List.filter_cons, h, FileSystem.lookup]
      simpa using ih

theorem lookup_filter_other (fs : FileSystem) (p q : String) (hne : q ≠ p) :
    FileSystem.lookup (fs.filter (fun qe => qe.1 ≠ p)) q = FileSystem.lookup fs q := by
  induction fs with
  | nil => rfl
  | cons qe rest ih =>
    obtain ⟨q0, e⟩ := qe
    by_cases h : q0 = p
    · have h1 : ¬ q0 = q := fun h2 => hne (h2.symm.trans h)
      simp [List.filter_cons, h, FileSystem.lookup]
      simp [← h, h1]
      simpa [h] using ih
    · simp [List.filter_cons, h, FileSystem.lookup]
      by_cases h1 : q0 = q
      · simp [h1]
      · simp [h1]
        simpa using ih

theorem getFileFields_absent (fs : FileSystem) (fileName : String)
    (h : fs.lookup (templatePath fileName) = none) :
    getFileFields fs fileName = ⟨404, .message "File not found."⟩ := by
  simp [getFileFields, existsSync, h]

theorem deleteFile_absent (fs : FileSystem) (fileName : String)
    (h : fs.lookup (templatePath fileName) = none) :
    deleteFile fs fileName = (⟨404, .message "File not found."⟩, fs) := by
  simp [deleteFile, existsSync, h]

/-- C8: for every file `f` stored in the template directory, `DELETE
/files/f` answers 200 and leaves a filesystem without `f` in which every other
path holds what it held; then `GET /files/f` answers 404, and a second `DELETE
/files/f` answers 404 and leaves the filesystem as it is. -/
theorem delete_then_get_then_delete (fs : FileSystem) (f : String) (bytes : FileBytes)
    (hstored : fs.lookup (templatePath f) = some (.file bytes)) :
    (deleteFile fs f).1.status = 200
      ∧ (deleteFile fs f).2.lookup (templatePath f) = none
      ∧ (∀ p, p ≠ templatePath f → (deleteFile fs f).2.lookup p = fs.lookup p)
      ∧ (getFileFields (deleteFile fs f).2 f).status = 404
      ∧ (deleteFile (deleteFile fs f).2 f).1.status = 404
      ∧ (deleteFile (deleteFile fs f).2 f).2 = (deleteFile fs f).2 := by
  have hdel : deleteFile fs f
      = (⟨200, .message "File deleted successfully."⟩,
          fs.filter (fun qe => qe.1 ≠ templatePath f)) := by
    simp [deleteFile, existsSync, unlinkSync, hstored]
  have hgone := lookup_filter_self fs (templatePath f)
  rw [hdel]
  refine ⟨rfl, hgone, fun p hp => lookup_filter_other fs _ p hp, ?_, ?_, ?_⟩
  · rw [getFileFields_absent _ _ hgone]
  · rw [deleteFile_absent _ _ hgone]
  · rw [deleteFile_absent _ _ hgone]

/-- C8, witness: deleting `form.pdf` from the sample store. -/
theorem delete_then_get_then_delete_witness :
    (deleteFile sampleFs "form.pdf").1.status = 200
      ∧ (deleteFile sampleFs "form.pdf").2.lookup (templatePath "form.pdf") = none
      ∧ (∀ p, p ≠ templatePath "form.pdf" →
          (deleteFile sampleFs "form.pdf").2.lookup p = sampleFs.lookup p)
      ∧ (getFileFields (deleteFile sampleFs "form.pdf").2 "form.pdf").status = 404
      ∧ (deleteFile (deleteFile sampleFs "form.pdf").2 "form.pdf").1.status = 404
      ∧ (deleteFile (deleteFile sampleFs "form.pdf").2 "form.pdf").2
          = (deleteFile sampleFs "form.pdf").2 :=
  delete_then_get_then_delete sampleFs "form.pdf" (.pdf sampleTemplate) (by decide)

/-! ## The stored name of an upload -/

theorem digitChar_inj_lt : ∀ a < 10, ∀ b < 10, digitChar a = digitChar b → a = b := by
  decide

theorem digitChar_inj (a b : Nat) (h : digitChar a = digitChar b) : a % 10 = b % 10 := by
  have ha : digitChar a = digitChar (a % 10) := by simp [digitChar]
  have hb : digitChar b = digitChar (b % 10) := by simp [digitChar]
  rw [ha, hb] at h
  exact digitChar_inj_lt _ (Nat.mod_lt _ (by decide)) _ (Nat.mod_lt _ (by decide)) h

theorem digitChar_plain_lt : ∀ a < 10, plainChar (digitChar a) := by
  unfold plainChar
  decide

theorem digitChar_plain (a : Nat) : plainChar (digitChar a) := by
  have ha : digitChar a = digitChar (a % 10) := by simp [digitChar]
  rw [ha]
  exact digitChar_plain_lt _ (Nat.mod_lt _ (by decide))

theorem pad2_inj (a b : Nat) (ha : a < 100) (hb : b < 100) (h : pad2 a = pad2 b) : a = b := by
  simp only [pad2, List.cons.injEq, and_true] at h
  have h1 := digitChar_inj _ _ h.1
  have h2 := digitChar_inj _ _ h.2
  omega

theorem pad4_inj (a b : Nat) (ha : a < 10000) (hb : b < 10000) (h : pad4 a = pad4 b) : a = b := by
  simp only [pad4, List.cons.injEq, and_true] at h
  have h1 := digitChar_inj _ _ h.1
  have h2 := digitChar_inj _ _ h.2.1
  have h3 := digitChar_inj _ _ h.2.2.1
  have h4 := digitChar_inj _ _ h.2.2.2
  omega

/-- The calendar date of a day count, taken apart into eras, centuries,
four-year groups, years and the day of the year. -/
theorem civil_decompose (days : Nat) :
    ∃ era c q yr doy mp,
      days + 719468 = 146097 * era + 36524 * c + 1461 * q + 365 * yr + doy
      ∧ c ≤ 3 ∧ q ≤ 24 ∧ yr ≤ 3 ∧ doy ≤ 365 ∧ mp = (5 * doy + 2) / 153
      ∧ dateOfDays days = doy - (153 * mp + 2) / 5 + 1
      ∧ monthOfDays days = (if mp < 10 then mp + 3 else mp - 9)
      ∧ yearOfDays days = 100 * c + 4 * q + yr + 400 * era + (if mp < 10 then 0 else 1) := by
  have hdoy : dayOfYear (dayOfEra days) ≤ 365 := by
    unfold dayOfYear yearOfQuad dayOfQuad quadOfCentury dayOfCentury centuryOfEra dayOfEra
    omega
  refine ⟨(days + 719468) / 146097, centuryOfEra (dayOfEra days), quadOfCentury (dayOfEra days),
    yearOfQuad (dayOfEra days), dayOfYear (dayOfEra days),
    monthFromMarch (dayOfYear (dayOfEra days)), ?_, ?_, ?_, ?_, hdoy, rfl, rfl, rfl, ?_⟩
  · unfold dayOfYear yearOfQuad dayOfQuad quadOfCentury dayOfCentury centuryOfEra dayOfEra
    omega
  · unfold centuryOfEra; omega
  · unfold quadOfCentury; omega
  · unfold yearOfQuad; omega
  · have hmp : monthFromMarch (dayOfYear (dayOfEra days)) ≤ 11 := by
      unfold monthFromMarch; omega
    unfold yearOfDays monthOfDays yearOfEra
    simp only []
    split_ifs <;> omega

/-- Two day counts with the same year, month and day of the month are equal. -/
theorem civil_inj (d1 d2 : Nat) (hy : yearOfDays d1 = yearOfDays d2)
    (hm : monthOfDays d1 = monthOfDays d2) (hd : dateOfDays d1 = dateOfDays d2) : d1 = d2 := by
  obtain ⟨e1, c1, q1, y1, doy1, mp1, h1, hc1, hq1, hy1, hdoy1, hmp1, hd1, hm1, hyr1⟩ :=
    civil_decompose d1
  obtain ⟨e2, c2, q2, y2, doy2, mp2, h2, hc2, hq2, hy2, hdoy2, hmp2, hd2, hm2, hyr2⟩ :=
    civil_decompose d2
  rw [hd1, hd2] at hd
  rw [hm1, hm2] at hm
  rw [hyr1, hyr2] at hy
  have hmp : mp1 = mp2 := by split_ifs at hm <;> omega
  have hyy : 100 * c1 + 4 * q1 + y1 + 400 * e1 = 100 * c2 + 4 * q2 + y2 + 400 * e2 := by
    split_ifs at hy <;> omega
  omega

/-- Up to the last day of the year 9999 the year has four digits, and the
month and the day of the month have two. -/
theorem civil_bounds (days : Nat) (h : days ≤ 2932896) :
    yearOfDays days ≤ 9999 ∧ monthOfDays days < 100 ∧ dateOfDays days < 100 := by
  obtain ⟨e1, c1, q1, y1, doy1, mp1, h1, hc1, hq1, hy1, hdoy1, hmp1, hd1, hm1, hyr1⟩ :=
    civil_decompose days
  rw [hyr1, hm1, hd1]
  refine ⟨?_, ?_, ?_⟩
  · split_ifs <;> omega
  · split_ifs <;> omega
  · omega

/-- The year computed for a day count is the `YearFromTime` of ECMAScript:
the year whose first day is the last one not after the day. -/
theorem yearOfDays_spec (days : Nat) :
    1970 ≤ yearOfDays days ∧ dayFromYear (yearOfDays days) ≤ days
      ∧ days < dayFromYear (yearOfDays days + 1) := by
  obtain ⟨e1, c1, q1, y1, doy1, mp1, h1, hc1, hq1, hy1, hdoy1, hmp1, hd1, hm1, hyr1⟩ :=
    civil_decompose days
  rw [hyr1]
  unfold dayFromYear
  split_ifs <;> omega

/-- The months, counted from March, start on the days of the year 0, 31, 61,
92, 122, 153, 184, 214, 245, 275, 306 and 337: months of 31, 30, 31, 30, 31,
31, 30, 31, 30, 31 and 31 days, February last. -/
theorem monthFromMarch_starts :
    (List.range 12).map (fun mp => (153 * mp + 2) / 5)
        = [0, 31, 61, 92, 122, 153, 184, 214, 245, 275, 306, 337]
      ∧ ∀ mp < 12, monthFromMarch ((153 * mp + 2) / 5) = mp
          ∧ monthFromMarch ((153 * (mp + 1) + 2) / 5 - 1) = mp := by
  decide

/-- The model of `toISOString` on the epoch, on two leap days, on the first of
March of 2100 and on the last millisecond of the year 9999. -/
theorem toISOString_samples :
    String.mk (toISOString 0) = "1970-01-01T00:00:00.000Z"
      ∧ String.mk (toISOString 951782400000) = "2000-02-29T00:00:00.000Z"
      ∧ String.mk (toISOString 1709251199999) = "2024-02-29T23:59:59.999Z"
      ∧ String.mk (toISOString 4107542400000) = "2100-03-01T00:00:00.000Z"
      ∧ String.mk (toISOString 1700000000123) = "2023-11-14T22:13:20.123Z"
      ∧ String.mk (toISOString 253402300799999) = "9999-12-31T23:59:59.999Z" := by
  decide

/-- The stored name of `form.pdf` uploaded on 14 November 2023 at 22:13:20.123
UTC. -/
theorem storageFilename_sample :
    storageFilename posixPath 1700000000123 "form.pdf" = "form-2023-11-14-22-13-20.pdf" := by
  decide

theorem replaceAllColons_plain (c : Char) (s : List Char) (h : plainChar c) :
    replaceAllColons (c :: s) = c :: replaceAllColons s := by
  simp [replaceAllColons, h.1]

theorem replaceFirstT_plain (c : Char) (s : List Char) (h : plainChar c) :
    replaceFirstT (c :: s) = c :: replaceFirstT s := by
  simp [replaceFirstT, h.2.1]

theorem splitDotHead_plain (c : Char) (s : List Char) (h : plainChar c) :
    splitDotHead (c :: s) = c :: splitDotHead s := by
  simp [splitDotHead, List.takeWhile, h.2.2]

theorem stamp_chars (y1 y2 y3 y4 m1 m2 d1 d2 h1 h2 i1 i2 s1 s2 : Char) (rest : List Char)
    (py1 : plainChar y1) (py2 : plainChar y2) (py3 : plainChar y3) (py4 : plainChar y4)
    (pm1 : plainChar m1) (pm2 : plainChar m2) (pd1 : plainChar d1) (pd2 : plainChar d2)
    (ph1 : plainChar h1) (ph2 : plainChar h2) (pi1 : plainChar i1) (pi2 : plainChar i2)
    (ps1 : plainChar s1) (ps2 : plainChar s2) :
    splitDotHead (replaceFirstT (replaceAllColons
      (y1 :: y2 :: y3 :: y4 :: '-' :: m1 :: m2 :: '-' :: d1 :: d2 :: 'T' :: h1 :: h2 :: ':'
        :: i1 :: i2 :: ':' :: s1 :: s2 :: '.' :: rest)))
    = [y1, y2, y3, y4, '-', m1, m2, '-', d1, d2, '-', h1, h2, '-', i1, i2, '-', s1, s2] := by
  have pdash : plainChar '-' := by unfold plainChar; decide
  have e1 : replaceAllColons (':' :: i1 :: i2 :: ':' :: s1 :: s2 :: '.' :: rest)
      = '-' :: i1 :: i2 :: '-' :: s1 :: s2 :: '.' :: replaceAllColons rest := by
    have hc : ∀ s, replaceAllColons (':' :: s) = '-' :: replaceAllColons s := fun s => rfl
    have hd : ∀ s, replaceAllColons ('.' :: s) = '.' :: replaceAllColons s := fun s => rfl
    rw [hc, replaceAllColons_plain _ _ pi1, replaceAllColons_plain _ _ pi2, hc,
      replaceAllColons_plain _ _ ps1, replaceAllColons_plain _ _ ps2, hd]
  have hT : ∀ s, replaceAllColons ('T' :: s) = 'T' :: replaceAllColons s := fun s => rfl
  have hT2 : ∀ s, replaceFirstT ('T' :: s) = '-' :: s := fun s => rfl
  have hdot : ∀ s, splitDotHead ('.' :: s) = [] := fun s => rfl
  rw [replaceAllColons_plain _ _ py1, replaceAllColons_plain _ _ py2,
    replaceAllColons_plain _ _ py3, replaceAllColons_plain _ _ py4,
    replaceAllColons_plain _ _ pdash, replaceAllColons_plain _ _ pm1,
    replaceAllColons_plain _ _ pm2, replaceAllColons_plain _ _ pdash,
    replaceAllColons_plain _ _ pd1, replaceAllColons_plain _ _ pd2, hT,
    replaceAllColons_plain _ _ ph1, replaceAllColons_plain _ _ ph2, e1,
    replaceFirstT_plain _ _ py1, replaceFirstT_plain _ _ py2, replaceFirstT_plain _ _ py3,
    replaceFirstT_plain _ _ py4, replaceFirstT_plain _ _ pdash, replaceFirstT_plain _ _ pm1,
    replaceFirstT_plain _ _ pm2, replaceFirstT_plain _ _ pdash, replaceFirstT_plain _ _ pd1,
    replaceFirstT_plain _ _ pd2, hT2,
    splitDotHead_plain _ _ py1, splitDotHead_plain _ _ py2, splitDotHead_plain _ _ py3,
    splitDotHead_plain _ _ py4, splitDotHead_plain _ _ pdash, splitDotHead_plain _ _ pm1,
    splitDotHead_plain _ _ pm2, splitDotHead_plain _ _ pdash, splitDotHead_plain _ _ pd1,
    splitDotHead_plain _ _ pd2, splitDotHead_plain _ _ pdash, splitDotHead_plain _ _ ph1,
    splitDotHead_plain _ _ ph2, splitDotHead_plain _ _ pdash, splitDotHead_plain _ _ pi1,
    splitDotHead_plain _ _ pi2, splitDotHead_plain _ _ pdash, splitDotHead_plain _ _ ps1,
    splitDotHead_plain _ _ ps2, hdot]

/-- Below the year 10000 the `timestamp` is the stamp of the UTC second the
clock is in. -/
theorem timestamp_eq_stampOfSecond (now : Nat) (h : now < yearTenThousand) :
    timestamp now = stampOfSecond (now / 1000) := by
  unfold yearTenThousand at h
  have hdays : now / 1000 / 86400 = now / 86400000 := by omega
  have hyear := (civil_bounds (now / 86400000) (by omega)).1
  have hh : now / 1000 % 86400 / 3600 = now % 86400000 / 3600000 := by omega
  have hm : now / 1000 % 86400 / 60 % 60 = now % 86400000 / 60000 % 60 := by omega
  have hs : now / 1000 % 86400 % 60 = now % 86400000 / 1000 % 60 := by omega
  unfold timestamp stampOfSecond toISOString isoYear
  simp only [hdays, hh, hm, hs, hyear, if_true, pad2, pad3, pad4, List.cons_append,
    List.nil_append, List.append_assoc]
  exact congrArg String.mk (stamp_chars _ _ _ _ _ _ _ _ _ _ _ _ _ _ _
    (digitChar_plain _) (digitChar_plain _) (digitChar_plain _) (digitChar_plain _)
    (digitChar_plain _) (digitChar_plain _) (digitChar_plain _) (digitChar_plain _)
    (digitChar_plain _) (digitChar_plain _) (digitChar_plain _) (digitChar_plain _)
    (digitChar_plain _) (digitChar_plain _))

/-- Below the year 10000 two seconds with the same stamp are the same second. -/
theorem stampOfSecond_inj (s1 s2 : Nat) (h1 : s1 < 253402300800) (h2 : s2 < 253402300800)
    (h : stampOfSecond s1 = stampOfSecond s2) : s1 = s2 := by
  obtain ⟨hy1, hm1, hd1⟩ := civil_bounds (s1 / 86400) (by omega)
  obtain ⟨hy2, hm2, hd2⟩ := civil_bounds (s2 / 86400) (by omega)
  unfold stampOfSecond at h
  injection h with h
  simp only [List.append_assoc] at h
  obtain ⟨hy, h⟩ := List.append_inj h (by simp only [pad4, List.length_cons, List.length_nil])
  simp only [List.cons_append, List.nil_append, List.cons.injEq, true_and] at h
  obtain ⟨hm, h⟩ := List.append_inj h (by simp only [pad2, List.length_cons, List.length_nil])
  simp only [List.cons_append, List.nil_append, List.cons.injEq, true_and] at h
  obtain ⟨hd, h⟩ := List.append_inj h (by simp only [pad2, List.length_cons, List.length_nil])
  simp only [List.cons_append, List.nil_append, List.cons.injEq, true_and] at h
  obtain ⟨hh, h⟩ := List.append_inj h (by simp only [pad2, List.length_cons, List.length_nil])
  simp only [List.cons_append, List.nil_append, List.cons.injEq, true_and] at h
  obtain ⟨hmi, h⟩ := List.append_inj h (by simp only [pad2, List.length_cons, List.length_nil])
  simp only [List.cons.injEq, true_and] at h
  have ey := pad4_inj _ _ (by omega) (by omega) hy
  have em := pad2_inj _ _ hm1 hm2 hm
  have ed := pad2_inj _ _ hd1 hd2 hd
  have eh := pad2_inj _ _ (by omega) (by omega) hh
  have emi := pad2_inj _ _ (by omega) (by omega) hmi
  have es := pad2_inj _ _ (by omega) (by omega) h
  have edays := civil_inj _ _ ey em ed
  omega

/-- C9: while the clock reads a year below 10000, the name an upload is
stored under is `<base>-<YYYY-MM-DD-HH-MM-SS><ext>`, with `base` and `ext` the
results of `path.basename(originalname, ext)` and `path.extname(originalname)`
and the stamp that of the UTC second the upload falls in; so two uploads of the
same original name get the same stored name when they fall in the same second
and different stored names when they fall in different seconds. -/
theorem storageFilename_stamp (path : PathModule) (originalname : String) (t1 t2 : Nat)
    (h1 : t1 < yearTenThousand) (h2 : t2 < yearTenThousand) :
    storageFilename path t1 originalname
        = path.basename originalname (path.extname originalname) ++ "-"
            ++ stampOfSecond (t1 / 1000) ++ path.extname originalname
      ∧ (t1 / 1000 = t2 / 1000 →
          storageFilename path t1 originalname = storageFilename path t2 originalname)
      ∧ (t1 / 1000 ≠ t2 / 1000 →
          storageFilename path t1 originalname ≠ storageFilename path t2 originalname) := by
  have e1 := timestamp_eq_stampOfSecond t1 h1
  have e2 := timestamp_eq_stampOfSecond t2 h2
  unfold storageFilename
  rw [e1, e2]
  refine ⟨rfl, ?_, ?_⟩
  · intro h
    rw [h]
  · intro hne heq
    apply hne
    have hdata := congrArg String.data heq
    simp only [String.data_append] at hdata
    have hstamp := List.append_cancel_left (List.append_cancel_right hdata)
    unfold yearTenThousand at h1 h2
    exact stampOfSecond_inj _ _ (by omega) (by omega) (String.ext hstamp)

/-- C9, witness: two uploads of `form.pdf` on 14 November 2023, 877
milliseconds apart in the second 22:13:20 and then one second apart. -/
theorem storageFilename_stamp_witness :
    storageFilename posixPath 1700000000123 "form.pdf"
        = posixPath.basename "form.pdf" (posixPath.extname "form.pdf") ++ "-"
            ++ stampOfSecond (1700000000123 / 1000) ++ posixPath.extname "form.pdf"
      ∧ (1700000000123 / 1000 = 1700000001000 / 1000 →
          storageFilename posixPath 1700000000123 "form.pdf"
            = storageFilename posixPath 1700000001000 "form.pdf")
      ∧ (1700000000123 / 1000 ≠ 1700000001000 / 1000 →
          storageFilename posixPath 1700000000123 "form.pdf"
            ≠ storageFilename posixPath 1700000001000 "form.pdf") :=
  storageFilename_stamp posixPath "form.pdf" 1700000000123 1700000001000
    (by decide) (by decide)

end PdfApi
